import Mathlib

/-!
Shallow embedding of the unified `ThreadPool` (src/thread_pool.cpp) and the
cooperative runtime (src/coro_runtime.h) of the Concurrency_in_Cpp repository,
together with proofs settling the frozen specification claims.

Tasks are identified by natural numbers; machine `size_t` counters are
modelled as `Nat` (the program never relies on wrap-around for these
counters), and `std::chrono` durations as integer tick counts.
-/

namespace ThreadPoolModel

/-- `ThreadPool::PoolKind`: the four pool operating modes
(`ClassicFixed` is the default kind used by `ThreadPool(n)`). -/
inductive PoolKind where
  | ClassicFixed
  | ElasticGlobal
  | WorkStealing
  | AdvancedElasticStealing
deriving DecidableEq, Repr

/-- Error kinds surfaced by the pool: `std::invalid_argument` from the
constructors and the `submit on stopped ThreadPool` runtime error. -/
inductive PoolError where
  | InvalidConfig
  | SubmitAfterShutdown
deriving DecidableEq, Repr

/-- Decidable equality of `Except` results, by cases on the constructor. -/
instance {e a : Type} [DecidableEq e] [DecidableEq a] :
    DecidableEq (Except e a) := fun x y =>
  match x, y with
  | .ok u, .ok v =>
    if h : u = v then .isTrue (by rw [h]) else .isFalse (by simp [h])
  | .ok _, .error _ => .isFalse (by simp)
  | .error _, .ok _ => .isFalse (by simp)
  | .error u, .error v =>
    if h : u = v then .isTrue (by rw [h]) else .isFalse (by simp [h])

/-- The mutexes of the pool: the global-queue mutex `queue_mutex_`, the
work-stealing bookkeeping mutex `ws_cv_mutex_`, and each worker queue's
own mutex `ws_queues_[i]->m`. -/
inductive Lock where
  | queueMutex
  | wsCvMutex
  | wsQueueMutex (i : Nat)
deriving DecidableEq, Repr

/-- Observable events of one `ThreadPool::submit` call.  `checkStop held`
records a read of the `stop_` flag together with the set of pool locks the
calling thread holds at that moment. -/
inductive SubmitEv where
  | checkStop (held : List Lock)
  | pushFrontOwn (w : Nat)
  | pushBackExternal (idx : Nat)
  | pushGlobal
  | spawnWorker (slot : Nat)
  | notifyOne
deriving DecidableEq, Repr

/-- State of a `ThreadPool` object (the data members of the class in
src/thread_pool.cpp).  Deques keep their front at the list head; the global
`task_queue_` is a FIFO pushed at the list tail and popped at the head.
`workers` counts the global-mode worker threads in `workers_`;
`ws_threads` is the size of the `ws_threads_` slot vector. -/
structure PoolState where
  kind : PoolKind
  stop : Bool
  min_threads : Nat
  max_threads : Nat
  active_threads : Nat
  idle_threads : Nat
  idle_timeout : Nat
  task_queue : List Nat
  workers : Nat
  ws_min_threads : Nat
  ws_max_threads : Nat
  ws_active_threads : Nat
  ws_idle_threads : Nat
  ws_idle_timeout : Nat
  ws_queues : List (List Nat)
  ws_running : List Bool
  ws_threads : Nat
  ws_queued_tasks : Nat
  ws_rr : Nat
deriving DecidableEq, Repr

/-- Whether the pool runs in one of the two work-stealing modes, as tested
by `kind_ == PoolKind::WorkStealing || kind_ == PoolKind::AdvancedElasticStealing`. -/
def isWsKind (k : PoolKind) : Bool :=
  k = PoolKind.WorkStealing ∨ k = PoolKind.AdvancedElasticStealing

/-- A `PoolState` with every member zero / empty, standing for the
default-initialised data members of the class. -/
def zeroState : PoolState where
  kind := PoolKind.ClassicFixed
  stop := false
  min_threads := 0
  max_threads := 0
  active_threads := 0
  idle_threads := 0
  idle_timeout := 0
  task_queue := []
  workers := 0
  ws_min_threads := 0
  ws_max_threads := 0
  ws_active_threads := 0
  ws_idle_threads := 0
  ws_idle_timeout := 0
  ws_queues := []
  ws_running := []
  ws_threads := 0
  ws_queued_tasks := 0
  ws_rr := 0

/-- `ThreadPool::init_ws_storage(max_threads)`: size the `ws_threads_` slot
vector, set every `ws_running_` flag to false, and create `max_threads`
empty worker queues. -/
def init_ws_storage (st : PoolState) (max_threads : Nat) : PoolState :=
  { st with
    ws_threads := max_threads
    ws_running := List.replicate max_threads false
    ws_queues := List.replicate max_threads [] }

/-- `ThreadPool::spawn_ws_worker(worker_id)`: mark the slot running and
increment `ws_active_threads_` (the join of a leftover handle and the OS
thread creation have no counterpart in the state model). -/
def spawn_ws_worker (st : PoolState) (worker_id : Nat) : PoolState :=
  { st with
    ws_running := st.ws_running.set worker_id true
    ws_active_threads := st.ws_active_threads + 1 }

/-- Iterated `spawn_ws_worker` on slots `0, 1, …, n-1`, as performed by the
constructor loops. -/
def spawn_ws_workers (st : PoolState) : Nat → PoolState
  | 0 => st
  | n + 1 => spawn_ws_worker (spawn_ws_workers st n) n

/-- The fixed-size constructor `ThreadPool(num_threads, kind)`
(src/thread_pool.cpp lines 10-41): rejects `num_threads == 0` and the two
elastic kinds; in `WorkStealing` mode it initialises the WS storage and
spawns `num_threads` WS workers, otherwise it spawns `num_threads`
global-queue workers. -/
def mkFixed (num_threads : Nat) (kind : PoolKind) : Except PoolError PoolState :=
  let st := { zeroState with
    kind := kind
    min_threads := num_threads
    max_threads := num_threads
    ws_min_threads := num_threads
    ws_max_threads := num_threads }
  if num_threads = 0 then
    .error .InvalidConfig
  else if kind = PoolKind.AdvancedElasticStealing ∨ kind = PoolKind.ElasticGlobal then
    .error .InvalidConfig
  else if kind = PoolKind.WorkStealing then
    .ok (spawn_ws_workers (init_ws_storage st num_threads) num_threads)
  else
    .ok { st with active_threads := num_threads, workers := num_threads }

/-- The elastic-global constructor `ThreadPool(min_threads, max_threads,
idle_timeout)` (src/thread_pool.cpp lines 43-61): kind is forced to
`ElasticGlobal`, the bounds `1 ≤ min ≤ max` are required, and exactly
`min_threads` global-elastic workers are spawned (each spawn increments
`active_threads_`). -/
def mkElasticGlobal (min_threads max_threads idle_timeout : Nat) :
    Except PoolError PoolState :=
  if min_threads = 0 ∨ max_threads = 0 ∨ min_threads > max_threads then
    .error .InvalidConfig
  else
    .ok { zeroState with
      kind := PoolKind.ElasticGlobal
      min_threads := min_threads
      max_threads := max_threads
      idle_timeout := idle_timeout
      active_threads := min_threads
      workers := min_threads }

/-- The advanced elastic work-stealing constructor `ThreadPool(min_threads,
max_threads, kind, idle_timeout)` (src/thread_pool.cpp lines 63-84): rejects
any kind other than `AdvancedElasticStealing` (checked first), then the
bounds; allocates `max_threads` queue and worker slots via
`init_ws_storage` and spawns `min_threads` workers onto slots `0..min-1`. -/
def mkAdvancedElastic (min_threads max_threads : Nat) (kind : PoolKind)
    (idle_timeout : Nat) : Except PoolError PoolState :=
  let st := { zeroState with
    kind := kind
    ws_min_threads := min_threads
    ws_max_threads := max_threads
    ws_idle_timeout := idle_timeout }
  if kind ≠ PoolKind.AdvancedElasticStealing then
    .error .InvalidConfig
  else if min_threads = 0 ∨ max_threads = 0 ∨ min_threads > max_threads then
    .error .InvalidConfig
  else
    .ok (spawn_ws_workers (init_ws_storage st max_threads) min_threads)

/-- `ThreadPool::find_inactive_ws_slot`: index of the first slot whose
`ws_running_` flag is false, or the vector size when every slot is running. -/
def find_inactive_ws_slot : List Bool → Nat
  | [] => 0
  | b :: rest => if b then find_inactive_ws_slot rest + 1 else 0

/-- `ThreadPool::submit(task)` (src/thread_pool.cpp lines 120-189), as a
function from the pool state, the submitting thread's worker identity
(`some w` when `tls_pool == this ∧ tls_worker_id == w`, `none` otherwise)
and the task (`none` models a null `std::function`) to the emitted event
trace and either the successor state or the thrown error. -/
def submit (st : PoolState) (caller : Option Nat) (task : Option Nat) :
    List SubmitEv × Except PoolError PoolState :=
  match task with
  | none => ([], .ok st)
  | some t =>
    if isWsKind st.kind then
      -- stop_ is loaded before any mutex is acquired in this branch.
      if st.stop then
        ([.checkStop []], .error .SubmitAfterShutdown)
      else
        match caller with
        | some w =>
          if w < st.ws_queues.length then
            ([.checkStop [], .pushFrontOwn w, .notifyOne],
             .ok { st with
               ws_queues := st.ws_queues.set w (t :: st.ws_queues.getD w [])
               ws_queued_tasks := st.ws_queued_tasks + 1 })
          else
            submitWsExternal st t
        | none => submitWsExternal st t
    else
      -- global paths: stop_ is checked while holding queue_mutex_.
      if st.stop then
        ([.checkStop [Lock.queueMutex]], .error .SubmitAfterShutdown)
      else
        let st1 := { st with task_queue := st.task_queue ++ [t] }
        if st.kind = PoolKind.ElasticGlobal ∧ st1.idle_threads = 0 ∧
            st1.active_threads < st1.max_threads then
          ([.checkStop [Lock.queueMutex], .pushGlobal,
            .spawnWorker st1.workers, .notifyOne],
           .ok { st1 with
             active_threads := st1.active_threads + 1
             workers := st1.workers + 1 })
        else
          ([.checkStop [Lock.queueMutex], .pushGlobal, .notifyOne], .ok st1)
where
  /-- The external work-stealing submission path (lines 141-166): push-back
  onto queue `rr++ mod N`, bump `ws_queued_tasks_`, and in elastic mode
  compute a spawn slot and re-check it under `ws_cv_mutex_`. -/
  submitWsExternal (st : PoolState) (t : Nat) :
      List SubmitEv × Except PoolError PoolState :=
    let n := st.ws_queues.length
    let idx := st.ws_rr % n
    let st1 := { st with
      ws_queues := st.ws_queues.set idx (st.ws_queues.getD idx [] ++ [t])
      ws_queued_tasks := st.ws_queued_tasks + 1
      ws_rr := st.ws_rr + 1 }
    let spawnId :=
      if st1.kind = PoolKind.AdvancedElasticStealing ∧ st1.ws_idle_threads = 0 ∧
          st1.ws_active_threads < st1.ws_max_threads then
        find_inactive_ws_slot st1.ws_running
      else
        st1.ws_running.length
    if spawnId < st1.ws_running.length ∧
        st1.ws_running.getD spawnId false = false ∧
        st1.ws_active_threads < st1.ws_max_threads then
      ([.checkStop [], .pushBackExternal idx, .spawnWorker spawnId, .notifyOne],
       .ok (spawn_ws_worker st1 spawnId))
    else
      ([.checkStop [], .pushBackExternal idx, .notifyOne], .ok st1)

/-- Outcome of invoking one submitted task body: normal return or a thrown
exception (exceptions are identified by a numeric code). -/
inductive TaskOutcome where
  | ok
  | throws (e : Nat)
deriving DecidableEq, Repr

/-- `task()`: invoking the task propagates its exception, if any. -/
def runTaskBody (o : TaskOutcome) : Except Nat Unit :=
  match o with
  | .ok => .ok ()
  | .throws e => .error e

/-- The task invocation of `ThreadPool::worker_global_fixed`
(src/thread_pool.cpp line 208): plain `task();` with no surrounding
handler, so a thrown exception escapes the loop iteration. -/
def workerGlobalFixedExec (o : TaskOutcome) : Except Nat Unit :=
  runTaskBody o

/-- The task invocation of `ThreadPool::worker_global_elastic`
(src/thread_pool.cpp line 242): plain `task();` with no surrounding
handler. -/
def workerGlobalElasticExec (o : TaskOutcome) : Except Nat Unit :=
  runTaskBody o

/-- The task invocation of `ThreadPool::worker_ws`
(src/thread_pool.cpp lines 300-304): `try { task(); } catch (...) {}` —
any exception is caught and discarded and the loop continues. -/
def workerWsExec (o : TaskOutcome) : Except Nat Unit :=
  match runTaskBody o with
  | .ok u => .ok u
  | .error _ => .ok ()

/-- `ThreadPool::pop_local_ws(worker_id, out)` (src/thread_pool.cpp lines
246-257): under the queue's lock, take the front element of the worker's
own deque and decrement `ws_queued_tasks_`; fail on an empty deque. -/
def pop_local_ws (st : PoolState) (worker_id : Nat) : Option Nat × PoolState :=
  match st.ws_queues.getD worker_id [] with
  | [] => (none, st)
  | x :: rest =>
    (some x,
     { st with
       ws_queues := st.ws_queues.set worker_id rest
       ws_queued_tasks := st.ws_queued_tasks - 1 })

/-- The probe order of `ThreadPool::steal_from_others_ws`: victims
`(thief_id + 1) % n, (thief_id + 2) % n, …, (thief_id + n - 1) % n`. -/
def stealProbeOrder (thief_id n : Nat) : List Nat :=
  (List.range (n - 1)).map (fun k => (thief_id + k + 1) % n)

/-- Result of a successful steal from queue `victim`: the back element of
the victim's deque is removed and `ws_queued_tasks_` is decremented. -/
def stealResult (st : PoolState) (victim : Nat) : Option Nat × PoolState :=
  let q := st.ws_queues.getD victim []
  (q.getLast?,
   { st with
     ws_queues := st.ws_queues.set victim q.dropLast
     ws_queued_tasks := st.ws_queued_tasks - 1 })

/-- The probe loop of `steal_from_others_ws` (src/thread_pool.cpp lines
265-278): each victim's mutex is try-locked (`lockOk victim` tells whether
the try-lock succeeds); a locked-out or empty victim is skipped; otherwise
the back element is taken. -/
def stealTry (st : PoolState) (lockOk : Nat → Bool) :
    List Nat → Option Nat × PoolState
  | [] => (none, st)
  | victim :: rest =>
    if lockOk victim then
      match (st.ws_queues.getD victim []).getLast? with
      | some x =>
        (some x,
         { st with
           ws_queues :=
             st.ws_queues.set victim (st.ws_queues.getD victim []).dropLast
           ws_queued_tasks := st.ws_queued_tasks - 1 })
      | none => stealTry st lockOk rest
    else stealTry st lockOk rest

/-- `ThreadPool::steal_from_others_ws(thief_id, out)` (src/thread_pool.cpp
lines 259-281): fail immediately when there is at most one queue, otherwise
run the deterministic probe loop. -/
def steal_from_others_ws (st : PoolState) (thief_id : Nat)
    (lockOk : Nat → Bool) : Option Nat × PoolState :=
  if st.ws_queues.length ≤ 1 then (none, st)
  else stealTry st lockOk (stealProbeOrder thief_id st.ws_queues.length)

/-- The lock-order sets in which a `checkStop` event occurred during a
submit trace. -/
def checkStopHeldSets (evs : List SubmitEv) : List (List Lock) :=
  evs.filterMap fun ev =>
    match ev with
    | .checkStop held => some held
    | _ => none

/-- Atomic steps of an `ElasticGlobal` pool.  Each constructor is one
critical region of src/thread_pool.cpp executed under `queue_mutex_`
(or the setting of the atomic `stop_` flag by the destructor):
`submitTask` is a whole `submit` call; `dequeue` is lines 238-239;
`idleEnter`/`idleExit` are lines 218 and 222; `retireStop` is lines
224-227; `retireTimeout` is lines 229-232 (reachable only with the queue
empty and, the stop-branch having been skipped, `stop` unset);
`setStop` is line 349. -/
inductive GEStep : PoolState → PoolState → Prop where
  | submitTask (st st' : PoolState) (caller : Option Nat) (t : Nat)
      (evs : List SubmitEv) :
      st.kind = PoolKind.ElasticGlobal →
      submit st caller (some t) = (evs, .ok st') →
      GEStep st st'
  | dequeue (st : PoolState) (t : Nat) (rest : List Nat) :
      st.task_queue = t :: rest →
      GEStep st { st with task_queue := rest }
  | idleEnter (st : PoolState) :
      GEStep st { st with idle_threads := st.idle_threads + 1 }
  | idleExit (st : PoolState) :
      0 < st.idle_threads →
      GEStep st { st with idle_threads := st.idle_threads - 1 }
  | retireStop (st : PoolState) :
      st.stop = true → st.task_queue = [] →
      GEStep st { st with active_threads := st.active_threads - 1 }
  | retireTimeout (st : PoolState) :
      st.stop = false → st.task_queue = [] →
      st.min_threads < st.active_threads →
      GEStep st { st with active_threads := st.active_threads - 1 }
  | setStop (st : PoolState) :
      GEStep st { st with stop := true }

/-- Atomic steps of an `AdvancedElasticStealing` pool.  Each constructor is
one critical region of src/thread_pool.cpp: `submitTask` is a whole
`submit` call; `spawnRecheck` is the re-check region of lines 157-163;
`popLocal` / `stealTask` are the queue operations of the worker loop;
`idleEnter`/`idleExit` are lines 309 and 317; `retireStop` is lines
288-296 and 319-326; `retireTimeout` is lines 328-335 (reachable only
with `stop` unset, the stop branch having returned otherwise);
`setStop` is line 349. -/
inductive WsStep : PoolState → PoolState → Prop where
  | submitTask (st st' : PoolState) (caller : Option Nat) (t : Nat)
      (evs : List SubmitEv) :
      st.kind = PoolKind.AdvancedElasticStealing →
      submit st caller (some t) = (evs, .ok st') →
      WsStep st st'
  | spawnRecheck (st : PoolState) (sid : Nat) :
      sid < st.ws_running.length →
      st.ws_running.getD sid false = false →
      st.ws_active_threads < st.ws_max_threads →
      WsStep st (spawn_ws_worker st sid)
  | popLocal (st : PoolState) (worker_id : Nat) :
      WsStep st (pop_local_ws st worker_id).2
  | stealTask (st : PoolState) (thief_id : Nat) (lockOk : Nat → Bool) :
      WsStep st (steal_from_others_ws st thief_id lockOk).2
  | idleEnter (st : PoolState) :
      WsStep st { st with ws_idle_threads := st.ws_idle_threads + 1 }
  | idleExit (st : PoolState) :
      0 < st.ws_idle_threads →
      WsStep st { st with ws_idle_threads := st.ws_idle_threads - 1 }
  | retireStop (st : PoolState) (worker_id : Nat) :
      st.stop = true → st.ws_queued_tasks = 0 →
      st.ws_running.getD worker_id false = true →
      WsStep st
        { st with
          ws_running := st.ws_running.set worker_id false
          ws_active_threads := st.ws_active_threads - 1 }
  | retireTimeout (st : PoolState) (worker_id : Nat) :
      st.stop = false → st.ws_queued_tasks = 0 →
      st.ws_min_threads < st.ws_active_threads →
      st.ws_running.getD worker_id false = true →
      WsStep st
        { st with
          ws_running := st.ws_running.set worker_id false
          ws_active_threads := st.ws_active_threads - 1 }
  | setStop (st : PoolState) :
      WsStep st { st with stop := true }

/-- States reachable from `st0` by `ElasticGlobal` steps. -/
def ReachableGE (st0 st : PoolState) : Prop :=
  Relation.ReflTransGen GEStep st0 st

/-- States reachable from `st0` by `AdvancedElasticStealing` steps. -/
def ReachableWs (st0 st : PoolState) : Prop :=
  Relation.ReflTransGen WsStep st0 st

/-- The elastic thread-count invariant for the global-queue side. -/
def elasticGlobalInv (st : PoolState) : Prop :=
  st.active_threads ≤ st.max_threads ∧
    (st.stop = false → st.min_threads ≤ st.active_threads)

/-- The elastic thread-count invariant for the work-stealing side. -/
def elasticWsInv (st : PoolState) : Prop :=
  st.ws_active_threads ≤ st.ws_max_threads ∧
    (st.stop = false → st.ws_min_threads ≤ st.ws_active_threads)

end ThreadPoolModel

namespace CoroModel

open ThreadPoolModel

/-- The shared state captured by `coro::sync_wait` (src/coro_runtime.h
lines 264-268): the `done` flag, the result slot and the captured-failure
slot (the mutex and condition variable guard them). -/
structure SyncShared where
  done : Bool
  out : Option Nat
  ep : Option Nat
deriving DecidableEq, Repr

/-- The shared state before the waiter runs: `done = false`, empty slots. -/
def syncSharedInit : SyncShared := ⟨false, none, none⟩

/-- The body of the inner waiter task (src/coro_runtime.h lines 270-282):
`try { out = co_await task; } catch (...) { ep = current_exception(); }`
then set `done` under the lock and notify.  `r` is the awaited task's
settled outcome: its result value or its captured failure. -/
def waiterBody (r : Except Nat Nat) (s : SyncShared) : SyncShared :=
  match r with
  | .ok v => { s with out := some v, done := true }
  | .error e => { s with ep := some e, done := true }

/-- The shared state as observed at `time`, for a task that completes at
step `taskSteps`: the waiter's updates become visible exactly when the
awaited task has completed. -/
def sharedAfter (taskSteps time : Nat) (r : Except Nat Nat) : SyncShared :=
  if taskSteps ≤ time then waiterBody r syncSharedInit else syncSharedInit

/-- `coro::sync_wait(task)` (src/coro_runtime.h lines 262-295): start the
waiter, block until `done`, then re-raise a captured failure or return the
moved-out result. -/
def sync_wait (r : Except Nat Nat) : Except Nat Nat :=
  let s := waiterBody r syncSharedInit
  match s.ep with
  | some e => .error e
  | none => .ok (s.out.getD 0)

/-- The handle returned from a final suspension: either the no-op
coroutine handle or the resume-handle of a stored continuation. -/
inductive ResumeTarget where
  | noop
  | coro (h : Nat)
deriving DecidableEq, Repr

/-- `FinalAwaiter::await_ready` (src/coro_runtime.h lines 59 and 144):
always false, the frame always reaches `await_suspend`. -/
def finalAwaiterReady : Bool := false

/-- `FinalAwaiter::await_suspend` (src/coro_runtime.h lines 61-65 and
146-150): `auto c = h.promise().continuation; return c ? c :
std::noop_coroutine();` — the stored continuation's handle is returned
directly (symmetric transfer), or the no-op handle when none is set. -/
def finalAwaiterSuspend (continuation : Option Nat) : ResumeTarget :=
  match continuation with
  | some c => ResumeTarget.coro c
  | none => ResumeTarget.noop

/-- Events in the lifetime of one task frame: body steps, completion of
the body, and the symmetric transfer performed by the final suspension. -/
inductive CoroEv where
  | bodyStep (i : Nat)
  | bodyComplete
  | transfer (t : ResumeTarget)
deriving DecidableEq, Repr

/-- The event trace of a completing task frame: the body runs to
completion, then the final suspension transfers to the handle chosen by
`FinalAwaiter::await_suspend`. -/
def completionTrace (body : List Nat) (continuation : Option Nat) :
    List CoroEv :=
  body.map CoroEv.bodyStep ++
    [CoroEv.bodyComplete, CoroEv.transfer (finalAwaiterSuspend continuation)]

/-- Events of awaiting `sleep_for`: spawning the detached timer thread and
the timer thread's `scheduler.post(h)` of the continuation. -/
inductive SleepEv where
  | spawnTimerThread (us : Int)
  | postViaScheduler (h : Nat)
deriving DecidableEq, Repr

/-- `coro::SleepForAwaiter` (src/coro_runtime.h lines 242-256), durations
as microsecond tick counts. -/
structure SleepForAwaiter where
  us : Int
deriving DecidableEq, Repr

/-- `coro::sleep_for(us, sched)` (src/coro_runtime.h lines 258-260). -/
def sleep_for (us : Int) : SleepForAwaiter := ⟨us⟩

/-- `SleepForAwaiter::await_ready` (line 246): `us.count() <= 0`. -/
def SleepForAwaiter.await_ready (a : SleepForAwaiter) : Bool :=
  decide (a.us ≤ 0)

/-- `SleepForAwaiter::await_suspend` (lines 248-253): spawn a detached
timer thread that sleeps for the duration and then posts the continuation
through the scheduler. -/
def SleepForAwaiter.await_suspend_events (a : SleepForAwaiter) (h : Nat) :
    List SleepEv :=
  [.spawnTimerThread a.us, .postViaScheduler h]

/-- The events produced by `co_await sleep_for(us, sched)`: none when the
awaiter is already ready, else the suspend path. -/
def awaitSleepEvents (a : SleepForAwaiter) (h : Nat) : List SleepEv :=
  if a.await_ready then [] else a.await_suspend_events h

end CoroModel

namespace ThreadPoolModel

/-- The pool state produced by `ThreadPool(1, 2, 0ms)`:
an `ElasticGlobal` pool with `min = 1`, `max = 2`, one spawned worker. -/
def geSampleState : PoolState :=
  { zeroState with
    kind := PoolKind.ElasticGlobal
    min_threads := 1
    max_threads := 2
    active_threads := 1
    workers := 1 }

/-- The pool state produced by
`ThreadPool(1, 2, PoolKind::AdvancedElasticStealing, 0ms)`: two queue and
worker slots, one spawned worker. -/
def wsSampleState : PoolState :=
  { zeroState with
    kind := PoolKind.AdvancedElasticStealing
    ws_min_threads := 1
    ws_max_threads := 2
    ws_active_threads := 1
    ws_queues := [[], []]
    ws_running := [true, false]
    ws_threads := 2 }

/-- A two-worker fixed work-stealing pool (`ThreadPool(2,
PoolKind::WorkStealing)`) whose destructor has set the `stop_` flag. -/
def wsStoppedState : PoolState :=
  { zeroState with
    kind := PoolKind.WorkStealing
    stop := true
    min_threads := 2
    max_threads := 2
    ws_min_threads := 2
    ws_max_threads := 2
    ws_active_threads := 2
    ws_queues := [[], []]
    ws_running := [true, true]
    ws_threads := 2 }

/-- A two-worker fixed work-stealing pool in its running state. -/
def wsRunState : PoolState :=
  { wsStoppedState with stop := false }

/-- The two-worker fixed work-stealing pool with task 7 (older) and task 9
(newer) queued on worker 1's deque. -/
def wsStealSample : PoolState :=
  { wsStoppedState with
    stop := false
    ws_queues := [[], [7, 9]]
    ws_queued_tasks := 2 }

/-- A four-worker classic pool (`ThreadPool(4)`) whose destructor has set
the `stop_` flag. -/
def classicStoppedState : PoolState :=
  { zeroState with
    kind := PoolKind.ClassicFixed
    stop := true
    min_threads := 4
    max_threads := 4
    active_threads := 4
    workers := 4 }

theorem getD_set_self {α : Type} (l : List α) (i : Nat) (x d : α)
    (h : i < l.length) : (l.set i x).getD i d = x := by
  simp [List.getD_eq_getElem?_getD, List.getElem?_set_self h]

theorem spawn_ws_workers_fields (st : PoolState) (n : Nat) :
    (spawn_ws_workers st n).ws_active_threads = st.ws_active_threads + n ∧
    (spawn_ws_workers st n).ws_running.length = st.ws_running.length ∧
    (spawn_ws_workers st n).ws_queues = st.ws_queues ∧
    (spawn_ws_workers st n).ws_threads = st.ws_threads ∧
    (spawn_ws_workers st n).kind = st.kind ∧
    (spawn_ws_workers st n).stop = st.stop ∧
    (spawn_ws_workers st n).ws_min_threads = st.ws_min_threads ∧
    (spawn_ws_workers st n).ws_max_threads = st.ws_max_threads := by
  induction n with
  | zero => simp [spawn_ws_workers]
  | succ m ih =>
    simp only [spawn_ws_workers, spawn_ws_worker, List.length_set]
    refine ⟨?_, ih.2.1, ih.2.2.1, ih.2.2.2.1, ih.2.2.2.2.1,
      ih.2.2.2.2.2.1, ih.2.2.2.2.2.2.1, ih.2.2.2.2.2.2.2⟩
    rw [ih.1, Nat.add_assoc]

end ThreadPoolModel

namespace ThreadPoolModel

/-- C10: `submit` checks for a null/empty task before checking the stop
flag (src/thread_pool.cpp lines 121-123), so in every mode a null task
submission returns silently with the pool state unchanged — even when the
stop flag is already set — and never raises `SubmitAfterShutdown`. -/
theorem submit_null_task_noop :
    ∀ (st : PoolState) (caller : Option Nat),
      submit st caller none = ([], Except.ok st) := by
  intro st caller
  rfl

/-- C1 counterexample: in the global-fixed mode the worker loop invokes the
task with no surrounding handler (src/thread_pool.cpp line 208), so a task
that throws exception 7 makes the exception escape the loop iteration
instead of being caught and discarded. -/
theorem worker_exception_claim_false :
    workerGlobalFixedExec (TaskOutcome.throws 7) = Except.error 7 ∧
      ¬ workerGlobalFixedExec (TaskOutcome.throws 7) = Except.ok () := by
  exact ⟨rfl, by simp [workerGlobalFixedExec, runTaskBody]⟩

/-- C1 (amended): only the work-stealing worker loop wraps the task call in
`try { … } catch (...)` and keeps running; in the global-fixed and
global-elastic loops the task is invoked bare, so a thrown exception
propagates out of the worker loop there. -/
theorem worker_exception_handling :
    (∀ o : TaskOutcome, workerWsExec o = Except.ok ()) ∧
    (∀ e : Nat, workerGlobalFixedExec (TaskOutcome.throws e) = Except.error e) ∧
    (∀ e : Nat, workerGlobalElasticExec (TaskOutcome.throws e) = Except.error e) ∧
    (∀ o : TaskOutcome, workerGlobalFixedExec o = runTaskBody o) ∧
    (∀ o : TaskOutcome, workerGlobalElasticExec o = runTaskBody o) := by
  refine ⟨?_, fun e => rfl, fun e => rfl, fun o => rfl, fun o => rfl⟩
  intro o
  cases o <;> rfl

end ThreadPoolModel

namespace CoroModel

/-- C7: `sync_wait` returns exactly when the awaited task completes — the
shared `done` flag becomes true exactly from the task's completion step on
— and the inner waiter always sets `done`; the value delivered after the
blocking wait re-raises the captured failure verbatim, or is the task's
result. -/
theorem sync_wait_settles :
    ∀ (r : Except Nat Nat) (n : Nat),
      (∀ t, (sharedAfter n t r).done = true ↔ n ≤ t) ∧
      (waiterBody r syncSharedInit).done = true ∧
      sync_wait r = r := by
  intro r n
  refine ⟨?_, ?_, ?_⟩
  · intro t
    unfold sharedAfter
    by_cases h : n ≤ t
    · simp only [if_pos h, iff_true_intro h, iff_true]
      cases r <;> rfl
    · simp [if_neg h, syncSharedInit, h]
  · cases r <;> rfl
  · cases r <;> rfl

/-- C8: the final suspension returns the stored continuation's handle
directly, or the no-op handle when none is registered; in the completion
trace of a task frame the continuation is transferred to exactly once, and
only after the body has completed (it is the last event). -/
theorem final_suspend_symmetric_transfer :
    ∀ (c : Nat) (body : List Nat),
      finalAwaiterSuspend (some c) = ResumeTarget.coro c ∧
      finalAwaiterSuspend none = ResumeTarget.noop ∧
      finalAwaiterReady = false ∧
      (completionTrace body (some c)).countP
        (fun ev => ev = CoroEv.transfer (ResumeTarget.coro c)) = 1 ∧
      (completionTrace body (some c))[body.length]? =
        some CoroEv.bodyComplete ∧
      (completionTrace body (some c))[body.length + 1]? =
        some (CoroEv.transfer (ResumeTarget.coro c)) ∧
      (completionTrace body (some c)).length = body.length + 2 := by
  intro c body
  refine ⟨rfl, rfl, rfl, ?_, ?_, ?_, ?_⟩
  · simp [completionTrace, List.countP_append, List.countP_cons,
      finalAwaiterSuspend, List.countP_eq_zero]
  · simp only [completionTrace]
    rw [List.getElem?_append_right (by simp)]
    simp
  · simp only [completionTrace]
    rw [List.getElem?_append_right (by simp)]
    simp [finalAwaiterSuspend]
  · simp [completionTrace]

/-- C9: `sleep_for`'s awaiter is ready iff the duration is ≤ 0; a zero or
negative duration completes synchronously producing no timer-thread event,
while a positive duration spawns the detached timer thread and posts the
continuation through the scheduler. -/
theorem sleep_for_awaiter_spec :
    ∀ (us : Int) (h : Nat),
      ((sleep_for us).await_ready = true ↔ us ≤ 0) ∧
      (us ≤ 0 → awaitSleepEvents (sleep_for us) h = []) ∧
      (0 < us →
        awaitSleepEvents (sleep_for us) h =
          [SleepEv.spawnTimerThread us, SleepEv.postViaScheduler h]) := by
  intro us h
  refine ⟨by simp [sleep_for, SleepForAwaiter.await_ready], ?_, ?_⟩
  · intro hle
    simp [awaitSleepEvents, sleep_for, SleepForAwaiter.await_ready, hle]
  · intro hpos
    have hnot : ¬ us ≤ 0 := not_le.mpr hpos
    simp [awaitSleepEvents, sleep_for, SleepForAwaiter.await_ready,
      SleepForAwaiter.await_suspend_events, hnot]

/-- Witness for C9 at concrete durations 0 and 3. -/
theorem sleep_for_awaiter_spec_witness :
    awaitSleepEvents (sleep_for 0) 5 = [] ∧
    awaitSleepEvents (sleep_for 3) 5 =
      [SleepEv.spawnTimerThread 3, SleepEv.postViaScheduler 5] :=
  ⟨(sleep_for_awaiter_spec 0 5).2.1 (by decide),
   (sleep_for_awaiter_spec 3 5).2.2 (by decide)⟩

end CoroModel

namespace ThreadPoolModel

/-- C3: each constructor raises `InvalidConfig` exactly when its
preconditions are violated, and otherwise completes with the specified
initial workers: the fixed constructor rejects `n = 0` and the elastic
kinds and spawns `n` workers; the elastic-global constructor rejects
`min = 0`, `max = 0` and `min > max` and spawns `min` workers; the elastic
work-stealing constructor additionally rejects a wrong kind, allocates
`max` queue and worker slots, and spawns `min` workers. -/
theorem constructor_config_spec :
    (∀ n kind, mkFixed n kind = Except.error PoolError.InvalidConfig ↔
      (n = 0 ∨ kind = PoolKind.ElasticGlobal ∨
        kind = PoolKind.AdvancedElasticStealing)) ∧
    (∀ n kind st, mkFixed n kind = Except.ok st →
      (kind = PoolKind.WorkStealing → st.ws_active_threads = n) ∧
      (kind ≠ PoolKind.WorkStealing →
        st.active_threads = n ∧ st.workers = n)) ∧
    (∀ mn mx tmo,
      mkElasticGlobal mn mx tmo = Except.error PoolError.InvalidConfig ↔
        (mn = 0 ∨ mx = 0 ∨ mn > mx)) ∧
    (∀ mn mx tmo st, mkElasticGlobal mn mx tmo = Except.ok st →
      st.active_threads = mn ∧ st.workers = mn) ∧
    (∀ mn mx kind tmo,
      mkAdvancedElastic mn mx kind tmo = Except.error PoolError.InvalidConfig ↔
        (kind ≠ PoolKind.AdvancedElasticStealing ∨ mn = 0 ∨ mx = 0 ∨ mn > mx)) ∧
    (∀ mn mx kind tmo st, mkAdvancedElastic mn mx kind tmo = Except.ok st →
      st.ws_queues.length = mx ∧ st.ws_running.length = mx ∧
      st.ws_threads = mx ∧ st.ws_active_threads = mn) := by
  refine ⟨?_, ?_, ?_, ?_, ?_, ?_⟩
  · intro n kind
    unfold mkFixed
    split_ifs with h1 h2 h3 <;> simp_all <;> tauto
  · intro n kind st h
    unfold mkFixed at h
    split_ifs at h with h1 h2 h3
    · cases h
      refine ⟨fun _ => ?_, fun hk => absurd h3 (fun h => hk h)⟩
      rw [(spawn_ws_workers_fields _ n).1]
      simp [init_ws_storage, zeroState]
    · cases h
      exact ⟨fun hk => absurd hk h3, fun _ => ⟨rfl, rfl⟩⟩
  · intro mn mx tmo
    unfold mkElasticGlobal
    split_ifs with h1 <;> simp_all
  · intro mn mx tmo st h
    unfold mkElasticGlobal at h
    split_ifs at h with h1
    cases h
    exact ⟨rfl, rfl⟩
  · intro mn mx kind tmo
    unfold mkAdvancedElastic
    split_ifs with h1 h2 <;> simp_all
  · intro mn mx kind tmo st h
    unfold mkAdvancedElastic at h
    split_ifs at h with h1 h2
    cases h
    refine ⟨?_, ?_, ?_, ?_⟩
    · rw [(spawn_ws_workers_fields _ mn).2.2.1]
      simp [init_ws_storage]
    · rw [(spawn_ws_workers_fields _ mn).2.1]
      simp [init_ws_storage]
    · rw [(spawn_ws_workers_fields _ mn).2.2.2.1]
      simp [init_ws_storage]
    · rw [(spawn_ws_workers_fields _ mn).1]
      simp [init_ws_storage, zeroState]

/-- Witness for C3: the elastic-global pool `(1, 2)` starts with one
worker; the advanced elastic pool `(1, 2)` allocates two slots and starts
with one worker. -/
theorem constructor_config_spec_witness :
    (geSampleState.active_threads = 1 ∧ geSampleState.workers = 1) ∧
    (wsSampleState.ws_queues.length = 2 ∧ wsSampleState.ws_running.length = 2 ∧
      wsSampleState.ws_threads = 2 ∧ wsSampleState.ws_active_threads = 1) :=
  ⟨constructor_config_spec.2.2.2.1 1 2 0 geSampleState rfl,
   constructor_config_spec.2.2.2.2.2 1 2 PoolKind.AdvancedElasticStealing 0
     wsSampleState rfl⟩

end ThreadPoolModel

namespace ThreadPoolModel

theorem pop_local_ws_set (st : PoolState) (w x : Nat) (rest : List Nat)
    (hg : st.ws_queues.getD w [] = x :: rest) :
    pop_local_ws st w =
      (some x,
       { st with
         ws_queues := st.ws_queues.set w rest
         ws_queued_tasks := st.ws_queued_tasks - 1 }) := by
  unfold pop_local_ws
  rw [hg]

theorem submit_ws_self_eq (st : PoolState) (w t : Nat)
    (hws : isWsKind st.kind = true) (hstop : st.stop = false)
    (hw : w < st.ws_queues.length) :
    submit st (some w) (some t) =
      ([SubmitEv.checkStop [], SubmitEv.pushFrontOwn w, SubmitEv.notifyOne],
       Except.ok { st with
         ws_queues := st.ws_queues.set w (t :: st.ws_queues.getD w [])
         ws_queued_tasks := st.ws_queued_tasks + 1 }) := by
  simp [submit, hws, hstop, hw]

theorem submit_ws_external_reduce (st : PoolState) (t : Nat)
    (hws : isWsKind st.kind = true) (hstop : st.stop = false) :
    submit st none (some t) = submit.submitWsExternal st t := by
  simp [submit, hws, hstop]

theorem submitWsExternal_spec (st : PoolState) (t : Nat) :
    ∃ evs st', submit.submitWsExternal st t = (evs, Except.ok st') ∧
      evs.head? = some (SubmitEv.checkStop []) ∧
      st'.ws_queues = st.ws_queues.set (st.ws_rr % st.ws_queues.length)
        (st.ws_queues.getD (st.ws_rr % st.ws_queues.length) [] ++ [t]) ∧
      st'.ws_rr = st.ws_rr + 1 ∧
      st'.ws_queued_tasks = st.ws_queued_tasks + 1 ∧
      st'.kind = st.kind ∧ st'.stop = st.stop ∧
      st'.ws_min_threads = st.ws_min_threads ∧
      st'.ws_max_threads = st.ws_max_threads ∧
      (st'.ws_active_threads = st.ws_active_threads ∨
        (st.ws_active_threads < st.ws_max_threads ∧
          st'.ws_active_threads = st.ws_active_threads + 1)) := by
  unfold submit.submitWsExternal
  dsimp only
  by_cases hk : st.kind = PoolKind.AdvancedElasticStealing ∧
      st.ws_idle_threads = 0 ∧ st.ws_active_threads < st.ws_max_threads
  · rw [if_pos hk]
    by_cases hc : find_inactive_ws_slot st.ws_running < st.ws_running.length ∧
        st.ws_running.getD (find_inactive_ws_slot st.ws_running) false = false ∧
        st.ws_active_threads < st.ws_max_threads
    · rw [if_pos hc]
      exact ⟨_, _, rfl, rfl, rfl, rfl, rfl, rfl, rfl, rfl, rfl,
        Or.inr ⟨hc.2.2, rfl⟩⟩
    · rw [if_neg hc]
      exact ⟨_, _, rfl, rfl, rfl, rfl, rfl, rfl, rfl, rfl, rfl, Or.inl rfl⟩
  · rw [if_neg hk]
    rw [if_neg (fun h => absurd h.1 (lt_irrefl _))]
    exact ⟨_, _, rfl, rfl, rfl, rfl, rfl, rfl, rfl, rfl, rfl, Or.inl rfl⟩

theorem submit_global_effects {st st' : PoolState} {caller : Option Nat}
    {t : Nat} {evs : List SubmitEv}
    (hkind : st.kind = PoolKind.ElasticGlobal)
    (h : submit st caller (some t) = (evs, Except.ok st')) :
    st'.stop = st.stop ∧ st'.min_threads = st.min_threads ∧
    st'.max_threads = st.max_threads ∧
    (st'.active_threads = st.active_threads ∨
      (st.active_threads < st.max_threads ∧
        st'.active_threads = st.active_threads + 1)) := by
  have hws : isWsKind st.kind = false := by rw [hkind]; rfl
  by_cases hstop : st.stop = true
  · have heq : submit st caller (some t) =
        ([SubmitEv.checkStop [Lock.queueMutex]],
         Except.error PoolError.SubmitAfterShutdown) := by
      simp [submit, hws, hstop]
    rw [heq] at h
    injection h with h1 h2
    exact (Except.noConfusion h2)
  · have hstop' : st.stop = false := by
      revert hstop; cases st.stop <;> simp
    unfold submit at h
    rw [hws] at h
    simp only [Bool.false_eq_true, if_false, hstop'] at h
    split at h
    next hc =>
      injection h with h1 h2
      injection h2 with h3
      subst h3
      exact ⟨hstop'.symm, rfl, rfl, Or.inr ⟨hc.2.2, rfl⟩⟩
    next hc =>
      injection h with h1 h2
      injection h2 with h3
      subst h3
      exact ⟨hstop'.symm, rfl, rfl, Or.inl rfl⟩

theorem submit_ws_effects {st st' : PoolState} {caller : Option Nat}
    {t : Nat} {evs : List SubmitEv}
    (hkind : st.kind = PoolKind.AdvancedElasticStealing)
    (h : submit st caller (some t) = (evs, Except.ok st')) :
    st'.stop = st.stop ∧ st'.ws_min_threads = st.ws_min_threads ∧
    st'.ws_max_threads = st.ws_max_threads ∧
    (st'.ws_active_threads = st.ws_active_threads ∨
      (st.ws_active_threads < st.ws_max_threads ∧
        st'.ws_active_threads = st.ws_active_threads + 1)) := by
  have hws : isWsKind st.kind = true := by rw [hkind]; rfl
  by_cases hstop : st.stop = true
  · have heq : submit st caller (some t) =
        ([SubmitEv.checkStop []],
         Except.error PoolError.SubmitAfterShutdown) := by
      simp [submit, hws, hstop]
    rw [heq] at h
    injection h with h1 h2
    exact (Except.noConfusion h2)
  · have hstop' : st.stop = false := by
      revert hstop; cases st.stop <;> simp
    cases caller with
    | some w =>
      by_cases hw : w < st.ws_queues.length
      · rw [submit_ws_self_eq st w t hws hstop' hw] at h
        injection h with h1 h2
        injection h2 with h3
        subst h3
        exact ⟨rfl, rfl, rfl, Or.inl rfl⟩
      · have heq : submit st (some w) (some t) =
            submit.submitWsExternal st t := by
          simp [submit, hws, hstop', hw]
        rw [heq] at h
        obtain ⟨evs2, st2, heq2, -, -, -, -, -, hstp, hmn, hmx, hact⟩ :=
          submitWsExternal_spec st t
        rw [heq2] at h
        injection h with h1 h2
        injection h2 with h3
        subst h3
        exact ⟨hstp, hmn, hmx, hact⟩
    | none =>
      rw [submit_ws_external_reduce st t hws hstop'] at h
      obtain ⟨evs2, st2, heq2, -, -, -, -, -, hstp, hmn, hmx, hact⟩ :=
        submitWsExternal_spec st t
      rw [heq2] at h
      injection h with h1 h2
      injection h2 with h3
      subst h3
      exact ⟨hstp, hmn, hmx, hact⟩

theorem pop_local_ws_fields (st : PoolState) (w : Nat) :
    (pop_local_ws st w).2.stop = st.stop ∧
    (pop_local_ws st w).2.ws_min_threads = st.ws_min_threads ∧
    (pop_local_ws st w).2.ws_max_threads = st.ws_max_threads ∧
    (pop_local_ws st w).2.ws_active_threads = st.ws_active_threads := by
  unfold pop_local_ws
  split <;> simp

theorem stealTry_fields (st : PoolState) (lockOk : Nat → Bool)
    (l : List Nat) :
    (stealTry st lockOk l).2.stop = st.stop ∧
    (stealTry st lockOk l).2.ws_min_threads = st.ws_min_threads ∧
    (stealTry st lockOk l).2.ws_max_threads = st.ws_max_threads ∧
    (stealTry st lockOk l).2.ws_active_threads = st.ws_active_threads := by
  induction l with
  | nil => simp [stealTry]
  | cons v rest ih =>
    by_cases hlk : lockOk v = true
    · cases hg : (st.ws_queues.getD v []).getLast? with
      | none =>
        unfold stealTry
        rw [if_pos hlk, hg]
        exact ih
      | some x =>
        unfold stealTry
        rw [if_pos hlk, hg]
        exact ⟨rfl, rfl, rfl, rfl⟩
    · unfold stealTry
      rw [if_neg hlk]
      exact ih

theorem steal_from_others_ws_fields (st : PoolState) (thief_id : Nat)
    (lockOk : Nat → Bool) :
    (steal_from_others_ws st thief_id lockOk).2.stop = st.stop ∧
    (steal_from_others_ws st thief_id lockOk).2.ws_min_threads =
      st.ws_min_threads ∧
    (steal_from_others_ws st thief_id lockOk).2.ws_max_threads =
      st.ws_max_threads ∧
    (steal_from_others_ws st thief_id lockOk).2.ws_active_threads =
      st.ws_active_threads := by
  unfold steal_from_others_ws
  split
  · simp
  · exact stealTry_fields st lockOk _

theorem stealTry_eq_find (st : PoolState) (lockOk : Nat → Bool)
    (l : List Nat) :
    stealTry st lockOk l =
      match l.find? (fun v => lockOk v && !(st.ws_queues.getD v []).isEmpty) with
      | none => (none, st)
      | some v => stealResult st v := by
  induction l with
  | nil => rfl
  | cons v rest ih =>
    by_cases hlk : lockOk v = true
    · cases hg : (st.ws_queues.getD v []).getLast? with
      | none =>
        have hq : st.ws_queues.getD v [] = [] :=
          List.getLast?_eq_none_iff.mp hg
        have hq2 : st.ws_queues[v]?.getD [] = [] := by
          rw [← List.getD_eq_getElem?_getD]; exact hq
        unfold stealTry
        rw [if_pos hlk, hg]
        rw [List.find?_cons_of_neg _ (by simp [hlk, hq2])]
        exact ih
      | some x =>
        have hq : (st.ws_queues.getD v []).isEmpty = false := by
          cases hqq : st.ws_queues.getD v [] with
          | nil => rw [hqq] at hg; simp at hg
          | cons a as => simp
        have hq2 : ¬ st.ws_queues[v]?.getD [] = [] := by
          rw [← List.getD_eq_getElem?_getD]
          intro hnil
          rw [hnil] at hq
          simp at hq
        unfold stealTry
        rw [if_pos hlk, hg]
        rw [List.find?_cons_of_pos _ (by simp [hlk, hq2])]
        have hg2 : (st.ws_queues[v]?.getD []).getLast? = some x := by
          rw [← List.getD_eq_getElem?_getD]; exact hg
        simp [stealResult, hg2]
    · unfold stealTry
      rw [if_neg hlk]
      rw [List.find?_cons_of_neg _ (by simp [hlk])]
      exact ih

theorem stealProbeOrder_not_self (thief n : Nat) (h : thief < n) :
    thief ∉ stealProbeOrder thief n := by
  intro hmem
  rw [stealProbeOrder, List.mem_map] at hmem
  obtain ⟨k, hk, heq⟩ := hmem
  rw [List.mem_range] at hk
  rcases Nat.lt_or_ge (thief + k + 1) n with hlt | hge
  · rw [Nat.mod_eq_of_lt hlt] at heq
    omega
  · rw [Nat.mod_eq_sub_mod hge, Nat.mod_eq_of_lt (by omega)] at heq
    omega

end ThreadPoolModel

namespace ThreadPoolModel

/-- C2 counterexample: on a stopped fixed work-stealing pool, an external
submit of task 0 does fail with `SubmitAfterShutdown`, but the stop check
is performed with NO lock held (in particular not the WS mutex
`ws_cv_mutex_`): `stop_` is loaded at src/thread_pool.cpp line 126, before
any mutex is acquired. -/
theorem submit_stop_check_counterexample :
    (submit wsStoppedState none (some 0)).2 =
      Except.error PoolError.SubmitAfterShutdown ∧
    ¬ (∀ held ∈ checkStopHeldSets (submit wsStoppedState none (some 0)).1,
        Lock.wsCvMutex ∈ held) :=
  ⟨rfl, by decide⟩

/-- C2 (amended): for every non-null task in every mode, submit after the
stop flag is set fails with `SubmitAfterShutdown`; the stop check is
performed under the global queue mutex in the global-queue paths, but in
the work-stealing paths the `stop_` flag is read atomically before any
mutex is acquired (no lock held at the check). -/
theorem submit_stop_check_spec :
    ∀ (st : PoolState) (caller : Option Nat) (t : Nat),
      (st.stop = true →
        submit st caller (some t) =
          ([SubmitEv.checkStop
              (if isWsKind st.kind then [] else [Lock.queueMutex])],
           Except.error PoolError.SubmitAfterShutdown)) ∧
      (submit st caller (some t)).1.head? =
        some (SubmitEv.checkStop
          (if isWsKind st.kind then [] else [Lock.queueMutex])) := by
  intro st caller t
  by_cases hws : isWsKind st.kind = true
  · constructor
    · intro hstop
      simp [submit, hws, hstop]
    · by_cases hstop : st.stop = true
      · simp [submit, hws, hstop]
      · have hstop' : st.stop = false := by
          revert hstop; cases st.stop <;> simp
        cases caller with
        | some w =>
          by_cases hw : w < st.ws_queues.length
          · rw [submit_ws_self_eq st w t hws hstop' hw]
            simp [hws]
          · have heq : submit st (some w) (some t) =
                submit.submitWsExternal st t := by
              simp [submit, hws, hstop', hw]
            rw [heq]
            obtain ⟨evs2, st2, heq2, hhead, -⟩ := submitWsExternal_spec st t
            rw [heq2]
            simpa [hws] using hhead
        | none =>
          rw [submit_ws_external_reduce st t hws hstop']
          obtain ⟨evs2, st2, heq2, hhead, -⟩ := submitWsExternal_spec st t
          rw [heq2]
          simpa [hws] using hhead
  · constructor
    · intro hstop
      simp [submit, hws, hstop]
    · by_cases hstop : st.stop = true
      · simp [submit, hws, hstop]
      · have hstop' : st.stop = false := by
          revert hstop; cases st.stop <;> simp
        rw [if_neg hws]
        simp only [submit]
        rw [if_neg hws, if_neg (show ¬(st.stop = true) by rw [hstop']; simp)]
        split <;> rfl

/-- Witness for C2 (amended), on a stopped fixed-WS pool (check with no
lock held) and a stopped classic pool (check under the queue mutex). -/
theorem submit_stop_check_spec_witness :
    submit wsStoppedState (some 0) (some 3) =
      ([SubmitEv.checkStop []], Except.error PoolError.SubmitAfterShutdown) ∧
    submit classicStoppedState none (some 3) =
      ([SubmitEv.checkStop [Lock.queueMutex]],
       Except.error PoolError.SubmitAfterShutdown) :=
  ⟨(submit_stop_check_spec wsStoppedState (some 0) 3).1 rfl,
   (submit_stop_check_spec classicStoppedState none 3).1 rfl⟩

/-- C5: in the work-stealing modes, submit from worker `w` pushes onto the
front of `w`'s own queue and bumps `queued_tasks`; submit from any other
thread pushes onto the back of queue `rr % N` and advances `rr`; since
`pop_local_ws` takes from the front, two self-submitted tasks are consumed
by that worker in LIFO order. -/
theorem ws_submit_routing_lifo :
    (∀ (st : PoolState) (w t : Nat),
      isWsKind st.kind = true → st.stop = false → w < st.ws_queues.length →
      submit st (some w) (some t) =
        ([SubmitEv.checkStop [], SubmitEv.pushFrontOwn w, SubmitEv.notifyOne],
         Except.ok { st with
           ws_queues := st.ws_queues.set w (t :: st.ws_queues.getD w [])
           ws_queued_tasks := st.ws_queued_tasks + 1 })) ∧
    (∀ (st : PoolState) (t : Nat),
      isWsKind st.kind = true → st.stop = false →
      ∃ evs st', submit st none (some t) = (evs, Except.ok st') ∧
        st'.ws_queues = st.ws_queues.set (st.ws_rr % st.ws_queues.length)
          (st.ws_queues.getD (st.ws_rr % st.ws_queues.length) [] ++ [t]) ∧
        st'.ws_rr = st.ws_rr + 1 ∧
        st'.ws_queued_tasks = st.ws_queued_tasks + 1) ∧
    (∀ (st : PoolState) (w t1 t2 : Nat),
      isWsKind st.kind = true → st.stop = false → w < st.ws_queues.length →
      ∃ evs1 evs2 st1 st2 st3,
        submit st (some w) (some t1) = (evs1, Except.ok st1) ∧
        submit st1 (some w) (some t2) = (evs2, Except.ok st2) ∧
        pop_local_ws st2 w = (some t2, st3) ∧
        (pop_local_ws st3 w).1 = some t1) := by
  refine ⟨?_, ?_, ?_⟩
  · intro st w t hws hstop hw
    exact submit_ws_self_eq st w t hws hstop hw
  · intro st t hws hstop
    rw [submit_ws_external_reduce st t hws hstop]
    obtain ⟨evs2, st2, heq2, -, hq, hrr, hqueued, -⟩ :=
      submitWsExternal_spec st t
    exact ⟨evs2, st2, heq2, hq, hrr, hqueued⟩
  · intro st w t1 t2 hws hstop hw
    have hwA : w < (st.ws_queues.set w
        (t1 :: st.ws_queues.getD w [])).length := by
      simpa using hw
    have e1 : (st.ws_queues.set w (t1 :: st.ws_queues.getD w [])).getD w []
        = t1 :: st.ws_queues.getD w [] := getD_set_self _ _ _ _ hw
    have hwB : w < ((st.ws_queues.set w (t1 :: st.ws_queues.getD w [])).set w
        (t2 :: (st.ws_queues.set w
          (t1 :: st.ws_queues.getD w [])).getD w [])).length := by
      simpa using hw
    have hg1 : ((st.ws_queues.set w (t1 :: st.ws_queues.getD w [])).set w
        (t2 :: (st.ws_queues.set w
          (t1 :: st.ws_queues.getD w [])).getD w [])).getD w []
        = t2 :: (st.ws_queues.set w
            (t1 :: st.ws_queues.getD w [])).getD w [] :=
      getD_set_self _ _ _ _ hwA
    have hg2 : (((st.ws_queues.set w (t1 :: st.ws_queues.getD w [])).set w
        (t2 :: (st.ws_queues.set w
          (t1 :: st.ws_queues.getD w [])).getD w [])).set w
            ((st.ws_queues.set w
              (t1 :: st.ws_queues.getD w [])).getD w [])).getD w []
        = t1 :: st.ws_queues.getD w [] := by
      rw [getD_set_self _ _ _ _ hwB]
      exact e1
    refine ⟨_, _, _, _, _, submit_ws_self_eq st w t1 hws hstop hw,
      submit_ws_self_eq _ w t2 hws hstop hwA,
      pop_local_ws_set _ _ _ _ hg1, ?_⟩
    dsimp only
    rw [pop_local_ws_set _ _ _ _ hg2]

/-- Witness for C5: on a running two-worker WS pool, worker 0 submitting
task 5 push-fronts it onto queue 0 and bumps the queued counter. -/
theorem ws_submit_routing_lifo_witness :
    submit wsRunState (some 0) (some 5) =
      ([SubmitEv.checkStop [], SubmitEv.pushFrontOwn 0, SubmitEv.notifyOne],
       Except.ok { wsRunState with
         ws_queues := [[5], []], ws_queued_tasks := 1 }) := by
  have h := ws_submit_routing_lifo.1 wsRunState 0 5 (by decide) rfl (by decide)
  rw [h]
  decide

/-- C6: `steal_from_others_ws` probes peers in the deterministic order
`(id+1, …, id+N-1) mod N` (which never revisits the thief's own queue),
takes the back element of the first lockable non-empty victim and
decrements `queued_tasks`, and fails when `N ≤ 1` or every probed queue is
locked or empty. -/
theorem steal_order_spec :
    (∀ (st : PoolState) (thief : Nat) (lockOk : Nat → Bool),
      st.ws_queues.length ≤ 1 →
      steal_from_others_ws st thief lockOk = (none, st)) ∧
    (∀ (st : PoolState) (thief : Nat) (lockOk : Nat → Bool),
      1 < st.ws_queues.length →
      steal_from_others_ws st thief lockOk =
        match (stealProbeOrder thief st.ws_queues.length).find?
            (fun v => lockOk v && !(st.ws_queues.getD v []).isEmpty) with
        | none => (none, st)
        | some v => stealResult st v) ∧
    (∀ (thief n : Nat), thief < n → thief ∉ stealProbeOrder thief n) ∧
    (∀ (st : PoolState) (thief : Nat) (lockOk : Nat → Bool),
      (∀ v ∈ stealProbeOrder thief st.ws_queues.length,
        lockOk v = false ∨ st.ws_queues.getD v [] = []) →
      steal_from_others_ws st thief lockOk = (none, st)) ∧
    (∀ (st : PoolState) (thief v : Nat) (lockOk : Nat → Bool),
      1 < st.ws_queues.length →
      (stealProbeOrder thief st.ws_queues.length).find?
          (fun u => lockOk u && !(st.ws_queues.getD u []).isEmpty) = some v →
      steal_from_others_ws st thief lockOk =
        ((st.ws_queues.getD v []).getLast?,
         { st with
           ws_queues := st.ws_queues.set v (st.ws_queues.getD v []).dropLast
           ws_queued_tasks := st.ws_queued_tasks - 1 })) := by
  refine ⟨?_, ?_, ?_, ?_, ?_⟩
  · intro st thief lockOk h
    unfold steal_from_others_ws
    rw [if_pos h]
  · intro st thief lockOk h
    unfold steal_from_others_ws
    rw [if_neg (by omega)]
    exact stealTry_eq_find st lockOk _
  · exact stealProbeOrder_not_self
  · intro st thief lockOk hall
    by_cases hn : st.ws_queues.length ≤ 1
    · unfold steal_from_others_ws
      rw [if_pos hn]
    · unfold steal_from_others_ws
      rw [if_neg hn, stealTry_eq_find]
      have hnone : (stealProbeOrder thief st.ws_queues.length).find?
          (fun v => lockOk v && !(st.ws_queues.getD v []).isEmpty) = none := by
        rw [List.find?_eq_none]
        intro x hx
        rcases hall x hx with hf | he
        · simp [hf]
        · have he2 : st.ws_queues[x]?.getD [] = [] := by
            rw [← List.getD_eq_getElem?_getD]; exact he
          simp [he2]
      rw [hnone]
  · intro st thief v lockOk hn hfind
    unfold steal_from_others_ws
    rw [if_neg (by omega), stealTry_eq_find, hfind]
    rfl

/-- Witness for C6: with thief 0 on a two-queue pool whose peer queue 1
holds `[7, 9]`, the steal takes the back element 9 and decrements the
queued counter. -/
theorem steal_order_spec_witness :
    steal_from_others_ws wsStealSample 0 (fun _ => true) =
      (some 9,
       { wsStealSample with ws_queues := [[], [7]], ws_queued_tasks := 1 }) := by
  have h := steal_order_spec.2.2.2.2 wsStealSample 0 1 (fun _ => true)
    (by decide) (by decide)
  rw [h]
  decide

end ThreadPoolModel

namespace ThreadPoolModel

theorem mkElasticGlobal_inv (mn mx tmo : Nat) (st0 : PoolState)
    (h : mkElasticGlobal mn mx tmo = Except.ok st0) :
    elasticGlobalInv st0 := by
  unfold mkElasticGlobal at h
  split_ifs at h with h1
  cases h
  push_neg at h1
  refine ⟨?_, fun _ => ?_⟩
  · show mn ≤ mx
    omega
  · show mn ≤ mn
    omega

theorem mkAdvancedElastic_inv (mn mx : Nat) (kind : PoolKind) (tmo : Nat)
    (st0 : PoolState)
    (h : mkAdvancedElastic mn mx kind tmo = Except.ok st0) :
    elasticWsInv st0 := by
  unfold mkAdvancedElastic at h
  split_ifs at h with h1 h2
  cases h
  push_neg at h2
  constructor
  · rw [(spawn_ws_workers_fields _ _).1,
      (spawn_ws_workers_fields _ _).2.2.2.2.2.2.2]
    simp [init_ws_storage, zeroState]
    omega
  · intro _
    rw [(spawn_ws_workers_fields _ _).1,
      (spawn_ws_workers_fields _ _).2.2.2.2.2.2.1]
    simp [init_ws_storage, zeroState]

theorem geStep_preserves {st st' : PoolState} (h : GEStep st st')
    (hinv : elasticGlobalInv st) : elasticGlobalInv st' := by
  obtain ⟨hub, hlb⟩ := hinv
  cases h with
  | submitTask st' caller t evs hkind hsub =>
    obtain ⟨hstop, hmin, hmax, hact⟩ := submit_global_effects hkind hsub
    rcases hact with hsame | ⟨hlt, hsucc⟩
    · exact ⟨by rw [hsame, hmax]; exact hub,
        fun hs => by
          rw [hsame, hmin]
          exact hlb (hstop.symm.trans hs)⟩
    · refine ⟨by rw [hsucc, hmax]; exact hlt, fun hs => ?_⟩
      have := hlb (hstop.symm.trans hs)
      rw [hsucc, hmin]
      omega
  | dequeue t rest hq => exact ⟨hub, hlb⟩
  | idleEnter => exact ⟨hub, hlb⟩
  | idleExit h0 => exact ⟨hub, hlb⟩
  | retireStop hstop hq =>
    refine ⟨le_trans (Nat.sub_le _ _) hub, fun hs => ?_⟩
    rw [show ({ st with active_threads := st.active_threads - 1 }
        : PoolState).stop = st.stop from rfl] at hs
    rw [hstop] at hs
    cases hs
  | retireTimeout hstop hq hgt =>
    refine ⟨le_trans (Nat.sub_le _ _) hub, fun _ => ?_⟩
    have := hlb hstop
    show st.min_threads ≤ st.active_threads - 1
    omega
  | setStop =>
    refine ⟨hub, fun hs => ?_⟩
    cases hs

theorem wsStep_preserves {st st' : PoolState} (h : WsStep st st')
    (hinv : elasticWsInv st) : elasticWsInv st' := by
  obtain ⟨hub, hlb⟩ := hinv
  cases h with
  | submitTask st' caller t evs hkind hsub =>
    obtain ⟨hstop, hmin, hmax, hact⟩ := submit_ws_effects hkind hsub
    rcases hact with hsame | ⟨hlt, hsucc⟩
    · exact ⟨by rw [hsame, hmax]; exact hub,
        fun hs => by
          rw [hsame, hmin]
          exact hlb (hstop.symm.trans hs)⟩
    · refine ⟨by rw [hsucc, hmax]; exact hlt, fun hs => ?_⟩
      have := hlb (hstop.symm.trans hs)
      rw [hsucc, hmin]
      omega
  | spawnRecheck sid hsid hrun hlt =>
    refine ⟨hlt, fun hs => ?_⟩
    have := hlb hs
    unfold spawn_ws_worker
    dsimp only
    omega
  | popLocal worker_id =>
    obtain ⟨hs, hmn, hmx, hac⟩ := pop_local_ws_fields st worker_id
    exact ⟨by rw [hac, hmx]; exact hub,
      fun h0 => by
        rw [hac, hmn]
        exact hlb (hs.symm.trans h0)⟩
  | stealTask thief_id lockOk =>
    obtain ⟨hs, hmn, hmx, hac⟩ := steal_from_others_ws_fields st thief_id lockOk
    exact ⟨by rw [hac, hmx]; exact hub,
      fun h0 => by
        rw [hac, hmn]
        exact hlb (hs.symm.trans h0)⟩
  | idleEnter => exact ⟨hub, hlb⟩
  | idleExit h0 => exact ⟨hub, hlb⟩
  | retireStop worker_id hstop hq hrun =>
    refine ⟨le_trans (Nat.sub_le _ _) hub, fun hs => ?_⟩
    rw [show ({ st with
        ws_running := st.ws_running.set worker_id false
        ws_active_threads := st.ws_active_threads - 1 }
        : PoolState).stop = st.stop from rfl] at hs
    rw [hstop] at hs
    cases hs
  | retireTimeout worker_id hstop hq hgt hrun =>
    refine ⟨le_trans (Nat.sub_le _ _) hub, fun _ => ?_⟩
    have := hlb hstop
    show st.ws_min_threads ≤ st.ws_active_threads - 1
    omega
  | setStop =>
    refine ⟨hub, fun hs => ?_⟩
    cases hs

/-- C4: for every elastic pool constructed with valid bounds, every state
reachable under the submit and worker-loop steps keeps the number of
active workers at most `max_threads`, and at least `min_threads` while the
stop flag is unset (a worker retires only when strictly above the floor). -/
theorem elastic_thread_bounds :
    (∀ (mn mx tmo : Nat) (st0 st : PoolState),
      mkElasticGlobal mn mx tmo = Except.ok st0 →
      ReachableGE st0 st →
      st.active_threads ≤ st.max_threads ∧
      (st.stop = false → st.min_threads ≤ st.active_threads)) ∧
    (∀ (mn mx : Nat) (kind : PoolKind) (tmo : Nat) (st0 st : PoolState),
      mkAdvancedElastic mn mx kind tmo = Except.ok st0 →
      ReachableWs st0 st →
      st.ws_active_threads ≤ st.ws_max_threads ∧
      (st.stop = false → st.ws_min_threads ≤ st.ws_active_threads)) := by
  constructor
  · intro mn mx tmo st0 st h0 hreach
    have hinv : elasticGlobalInv st := by
      induction hreach with
      | refl => exact mkElasticGlobal_inv mn mx tmo st0 h0
      | tail hsteps hstep ih => exact geStep_preserves hstep ih
    exact hinv
  · intro mn mx kind tmo st0 st h0 hreach
    have hinv : elasticWsInv st := by
      induction hreach with
      | refl => exact mkAdvancedElastic_inv mn mx kind tmo st0 h0
      | tail hsteps hstep ih => exact wsStep_preserves hstep ih
    exact hinv

/-- Witness for C4 at the freshly constructed elastic pools `(min 1, max 2)`. -/
theorem elastic_thread_bounds_witness :
    (geSampleState.active_threads ≤ geSampleState.max_threads ∧
      (geSampleState.stop = false →
        geSampleState.min_threads ≤ geSampleState.active_threads)) ∧
    (wsSampleState.ws_active_threads ≤ wsSampleState.ws_max_threads ∧
      (wsSampleState.stop = false →
        wsSampleState.ws_min_threads ≤ wsSampleState.ws_active_threads)) :=
  ⟨elastic_thread_bounds.1 1 2 0 geSampleState geSampleState rfl
      Relation.ReflTransGen.refl,
   elastic_thread_bounds.2 1 2 PoolKind.AdvancedElasticStealing 0
      wsSampleState wsSampleState rfl Relation.ReflTransGen.refl⟩

end ThreadPoolModel
